import Mathlib

/-!
Verification of the winston-cloudwatch-example logging layer.

Shallow embedding of `src/logger.ts`, `src/middleware/loggerMiddleware.ts`
and the batching transport they configure.  JavaScript objects are embedded
as association lists of string keys to `JsVal` values; the object-literal
spread `{fixed..., ...extra}` is embedded by folding the extra bindings
over the fixed bindings with an overwriting insert, which matches the
ECMAScript semantics of a trailing spread (later keys overwrite earlier
ones, the position of an already-present key is kept).
-/

namespace WinstonCW

/-- A JavaScript value as it appears in log entries: a string, a number,
or `undefined`. -/
inductive JsVal where
  | str : String → JsVal
  | num : Int → JsVal
  | undef : JsVal
deriving DecidableEq

/-- A JavaScript object: ordered association list of key/value bindings. -/
def JsObj : Type := List (String × JsVal)

/-- Lookup of a key in an object (first binding wins, as in an object whose
keys are unique). -/
def getKey : List (String × JsVal) → String → Option JsVal
  | [], _ => none
  | (k', v) :: rest, k => if k = k' then some v else getKey rest k

/-- Overwriting insert: replace the value at the first occurrence of `k`,
keeping its position, or append the binding at the end.  This is how a
spread merges one key into an object literal. -/
def setKey : List (String × JsVal) → String → JsVal → List (String × JsVal)
  | [], k, v => [(k, v)]
  | (k', v') :: rest, k, v =>
      if k' = k then (k', v) :: rest else (k', v') :: setKey rest k v

/-- `spreadInto base extra` is the object literal `{...base, ...extra}`:
every binding of `extra` is merged into `base` in order, overwriting. -/
def spreadInto (base extra : List (String × JsVal)) : List (String × JsVal) :=
  extra.foldl (fun o kv => setKey o kv.1 kv.2) base

/-- JavaScript `new Date()` value: the wall-clock instant captured when the
envelope is built. -/
structure Date where
  year : Nat
  month : Nat
  day : Nat
  hour : Nat
  minute : Nat
  second : Nat
  ms : Nat
deriving DecidableEq

/-- Left-pad a decimal rendering to width `w` with zeros. -/
def padZ (w n : Nat) : String :=
  let s := toString n
  String.mk (List.replicate (w - s.length) '0') ++ s

/-- `Date.prototype.toISOString`: `YYYY-MM-DDTHH:mm:ss.sssZ`. -/
def Date.toISOString (d : Date) : String :=
  (padZ 4 d.year ++ "-" ++ padZ 2 d.month ++ "-" ++ padZ 2 d.day ++ "T" ++
   padZ 2 d.hour ++ ":" ++ padZ 2 d.minute ++ ":" ++ padZ 2 d.second ++ "." ++
   padZ 3 d.ms) ++ "Z"

/-- The Express `Request` fields the logging layer reads: the augmented
optional `agentId` (from `express.d.ts` / the app middleware), the original
URL, the client IP, and the method/headers/params/body that the request
middleware logs. -/
structure Request where
  agentId : Option String
  originalUrl : String
  ip : String
  method : String
  headers : List (String × String)
  params : List (String × String)
  body : String
deriving DecidableEq

/-- The `status` literal union `"SUCCESS" | "FAILURE"` of `LogEntryOptions`. -/
inductive Status where
  | SUCCESS : Status
  | FAILURE : Status
deriving DecidableEq

/-- Render a status to the string that lands in the entry. -/
def Status.toStr : Status → String
  | .SUCCESS => "SUCCESS"
  | .FAILURE => "FAILURE"

/-- `interface LogEntryOptions` of `src/logger.ts`: `action`, `clientId`,
optional `additionalData` object, optional `status`. -/
structure LogEntryOptions where
  action : String
  clientId : String
  additionalData : List (String × JsVal)
  status : Option Status
deriving DecidableEq

/-- JavaScript `x || dflt` on a `string | undefined` value: `undefined` and
the empty string are falsy and select the default. -/
def jsOrString (x : Option String) (dflt : String) : String :=
  match x with
  | none => dflt
  | some s => if s = "" then dflt else s

/-- The eight fixed bindings of the object literal in `createLogEntry`,
in source order: `timestamp` (ISO rendering of the call time), `agentId`
(`req.agentId || 'UNKNOWN_AGENT'`), `clientId`, `action`, `endpoint`
(`req.originalUrl`), `status` (`options.status || "SUCCESS"`), `requestIP`
(`req.ip`) and the constant `userRole: "agent"`. -/
def fixedFields (now : Date) (options : LogEntryOptions) (req : Request) :
    List (String × JsVal) :=
  [("timestamp", JsVal.str now.toISOString),
   ("agentId", JsVal.str (jsOrString req.agentId "UNKNOWN_AGENT")),
   ("clientId", JsVal.str options.clientId),
   ("action", JsVal.str options.action),
   ("endpoint", JsVal.str req.originalUrl),
   ("status", JsVal.str ((options.status.getD Status.SUCCESS).toStr)),
   ("requestIP", JsVal.str req.ip),
   ("userRole", JsVal.str "agent")]

/-- `createLogEntry` of `src/logger.ts`: builds the envelope object with
the eight fixed fields and then spreads `options.additionalData` over
them, exactly as the trailing `...options.additionalData` does. -/
def createLogEntry (now : Date) (options : LogEntryOptions) (req : Request) :
    List (String × JsVal) :=
  spreadInto (fixedFields now options req) options.additionalData

/-- The keys of the fixed envelope fields. -/
def fixedKeys : List String :=
  ["timestamp", "agentId", "clientId", "action", "endpoint", "status",
   "requestIP", "userRole"]

/-- The process environment variables read by `src/logger.ts` via
`process.env`; each is a `string | undefined`. -/
structure Env where
  CLOUDWATCH_LOG_GROUP_NAME : Option String
  AWS_REGION : Option String
  AWS_ACCESS_KEY_ID : Option String
  AWS_SECRET_ACCESS_KEY : Option String
deriving DecidableEq

/-- The configuration object passed to `new winston.transports.CloudWatch`
in `createLoggerForStream`. -/
structure CloudWatchConfig where
  logGroupName : String
  logStreamName : String
  awsRegion : Option String
  jsonMessage : Bool
  awsAccessKeyId : Option String
  awsSecretAccessKey : Option String
  uploadRate : Nat
deriving DecidableEq

/-- A transport registered on a Winston logger: the synchronous console
transport or the CloudWatch transport with its configuration. -/
inductive Transport where
  | console : Transport
  | cloudWatch : CloudWatchConfig → Transport
deriving DecidableEq

/-- A Winston logger as configured by `winston.createLogger` in
`createLoggerForStream`: a level and an ordered list of transports. -/
structure Logger where
  level : String
  transports : List Transport
deriving DecidableEq

/-- `createLoggerForStream` of `src/logger.ts`: a logger at level `info`
with a console transport followed by a CloudWatch transport whose group
name is `process.env.CLOUDWATCH_LOG_GROUP_NAME || 'MyAppLogs'`, whose
stream name is the argument, and whose region and credentials are passed
through from the environment unvalidated. -/
def createLoggerForStream (env : Env) (logStreamName : String) : Logger :=
  { level := "info",
    transports :=
      [Transport.console,
       Transport.cloudWatch
         { logGroupName := jsOrString env.CLOUDWATCH_LOG_GROUP_NAME "MyAppLogs",
           logStreamName := logStreamName,
           awsRegion := env.AWS_REGION,
           jsonMessage := true,
           awsAccessKeyId := env.AWS_ACCESS_KEY_ID,
           awsSecretAccessKey := env.AWS_SECRET_ACCESS_KEY,
           uploadRate := 1000 }] }

/-- The module-level `loggers` record of `src/logger.ts`: one logger per
stream, all built unconditionally at module load. -/
structure Loggers where
  communication : Logger
  systemErrors : Logger
  auditLog : Logger
  accountTransactions : Logger
  clientProfile : Logger
  identityVerification : Logger
  apiPerformance : Logger
deriving DecidableEq

/-- Construction of the exported `loggers` object at module load,
parameterised by the environment it reads.  There is no validation and no
error path: every field is built by `createLoggerForStream`. -/
def loggers (env : Env) : Loggers :=
  { communication := createLoggerForStream env "communication-transactions",
    systemErrors := createLoggerForStream env "system-errors",
    auditLog := createLoggerForStream env "audit-log",
    accountTransactions := createLoggerForStream env "account-transactions",
    clientProfile := createLoggerForStream env "client-profile-management",
    identityVerification := createLoggerForStream env "identity-verification",
    apiPerformance := createLoggerForStream env "api-performance" }

/-- The closed enumerated set of stream identifiers of the spec's
data model, matching the seven streams of `src/logger.ts`. -/
inductive StreamId where
  | clientProfileManagement : StreamId
  | communicationTransactions : StreamId
  | accountTransactions : StreamId
  | identityVerification : StreamId
  | auditLog : StreamId
  | systemErrors : StreamId
  | apiPerformance : StreamId
deriving DecidableEq

/-- The CloudWatch log-stream name of each stream identifier. -/
def StreamId.name : StreamId → String
  | .clientProfileManagement => "client-profile-management"
  | .communicationTransactions => "communication-transactions"
  | .accountTransactions => "account-transactions"
  | .identityVerification => "identity-verification"
  | .auditLog => "audit-log"
  | .systemErrors => "system-errors"
  | .apiPerformance => "api-performance"

/-- All seven stream identifiers. -/
def allStreamIds : List StreamId :=
  [.clientProfileManagement, .communicationTransactions, .accountTransactions,
   .identityVerification, .auditLog, .systemErrors, .apiPerformance]

/-- Stream resolution: look a logger up in the `loggers` record by its
stream identifier, as callers of `src/logger.ts` do by field access
(`loggers.clientProfile`, `loggers.systemErrors`, ...).  Total over the
closed enumeration by construction. -/
def resolve (L : Loggers) : StreamId → Logger
  | .clientProfileManagement => L.clientProfile
  | .communicationTransactions => L.communication
  | .accountTransactions => L.accountTransactions
  | .identityVerification => L.identityVerification
  | .auditLog => L.auditLog
  | .systemErrors => L.systemErrors
  | .apiPerformance => L.apiPerformance

/-- The log-stream name carried by the CloudWatch transport of a logger,
when it has one. -/
def cloudWatchStreamTarget (L : Logger) : Option String :=
  L.transports.foldr
    (fun t acc =>
      match t with
      | Transport.console => acc
      | Transport.cloudWatch cfg => some cfg.logStreamName)
    none

/-- The possible startup configuration error of the spec's taxonomy. -/
inductive ConfigError where
  | missing : String → ConfigError
deriving DecidableEq

/-- Modelled from the spec: the `initAll` contract of §4.2, which is stated
in the spec but has no counterpart in `src/` (the source constructs the
`loggers` record unconditionally).  Per the spec's words, it fails with a
`ConfigError` when the endpoint/region, credentials, or group identifier is
missing, and otherwise returns the registry of §9's note. -/
def initAllSpecContract (env : Env) : Except ConfigError Loggers :=
  match env.CLOUDWATCH_LOG_GROUP_NAME with
  | none => Except.error (ConfigError.missing "CLOUDWATCH_LOG_GROUP_NAME")
  | some _ =>
    match env.AWS_REGION with
    | none => Except.error (ConfigError.missing "AWS_REGION")
    | some _ =>
      match env.AWS_ACCESS_KEY_ID with
      | none => Except.error (ConfigError.missing "AWS_ACCESS_KEY_ID")
      | some _ =>
        match env.AWS_SECRET_ACCESS_KEY with
        | none => Except.error (ConfigError.missing "AWS_SECRET_ACCESS_KEY")
        | some _ => Except.ok (loggers env)

/-- An environment with every variable unset. -/
def envNone : Env :=
  { CLOUDWATCH_LOG_GROUP_NAME := none, AWS_REGION := none,
    AWS_ACCESS_KEY_ID := none, AWS_SECRET_ACCESS_KEY := none }

/-- The entry that `logRequest` of `src/middleware/loggerMiddleware.ts`
writes to the `systemErrors` logger for an incoming request. -/
structure IngressEntry where
  message : String
  method : String
  url : String
  headers : List (String × String)
  params : List (String × String)
  body : String
deriving DecidableEq

/-- An entry on the `api-performance` stream (latency record); emitted by
route handlers in `app.ts`, kept abstract here. -/
structure PerfEntry where
  message : String
  latencyMs : Nat
  statusCode : Nat
deriving DecidableEq

/-- The observable logging state the request middleware can touch: the
entries emitted so far on the `system-errors` and `api-performance`
streams, and how many times `next()` has been invoked. -/
structure AppState where
  systemErrorsLog : List IngressEntry
  apiPerformanceLog : List PerfEntry
  nextCalls : Nat
deriving DecidableEq

/-- The opaque response value the middleware is given; `logRequest` never
reads or writes it. -/
def ResponseVal : Type := String

/-- `logRequest` of `src/middleware/loggerMiddleware.ts`: synchronously
logs one `Incoming request` entry with the method, URL, headers, params
and body to the `systemErrors` logger, then calls `next()` once.  It
returns the response value untouched. -/
def logRequest (req : Request) (res : ResponseVal) (st : AppState) :
    AppState × ResponseVal :=
  let logged : AppState :=
    { st with
      systemErrorsLog := st.systemErrorsLog ++
        [{ message := "Incoming request", method := req.method,
           url := req.originalUrl, headers := req.headers,
           params := req.params, body := req.body }] }
  ({ logged with nextCalls := logged.nextCalls + 1 }, res)

/-- Modelled from the spec: the per-stream Batching Dispatcher of §4.4.
Its implementation lives in the `winston-cloudwatch` transport, which is
not under `src/` — only its type declaration
(`src/@types/winston-cloudwatch.d.ts`) and its caller
(`createLoggerForStream`, which registers it with `uploadRate: 1000`) are.
The state of one stream's dispatcher: the entries the Local Sink has
received, the active bounded buffer, the batches handed to the remote
transport in send order (sends are serialized per stream — the single
sequential `sent` list is the single-flight send slot), and a count of
entries dropped by backpressure. -/
structure DispState (α : Type) where
  localSink : List α
  buffer : List α
  sent : List (List α)
  dropCount : Nat
deriving DecidableEq

/-- Modelled from the spec: `enqueue(entry)` of §4.4 — always write to the
Local Sink first (synchronous, guaranteed), then append to the bounded
buffer of capacity `C`; on a full buffer apply the drop-oldest
backpressure policy (spec choice (a)) and count the drop. -/
def enqueue {α : Type} (C : Nat) (e : α) (st : DispState α) : DispState α :=
  let st' : DispState α := { st with localSink := st.localSink ++ [e] }
  if st'.buffer.length < C then
    { st' with buffer := st'.buffer ++ [e] }
  else
    { st' with buffer := st'.buffer.tail ++ [e],
               dropCount := st'.dropCount + 1 }

/-- Modelled from the spec: the flush procedure of §4.4 — atomically swap
the active buffer for an empty one and hand its contents to the remote
transport as one batch; an empty buffer sends nothing. -/
def flush {α : Type} (st : DispState α) : DispState α :=
  if st.buffer.isEmpty then st
  else { st with buffer := [], sent := st.sent ++ [st.buffer] }

/-- A dispatcher event: an `enqueue` call, or a flush trigger (size or
time threshold, per §4.4). -/
inductive DispOp (α : Type) where
  | enq : α → DispOp α
  | flushOp : DispOp α
deriving DecidableEq

/-- Run a sequence of dispatcher events from a state. -/
def runOps {α : Type} (C : Nat) (ops : List (DispOp α)) (st : DispState α) :
    DispState α :=
  ops.foldl
    (fun s op =>
      match op with
      | DispOp.enq e => enqueue C e s
      | DispOp.flushOp => flush s)
    st

/-- The entries enqueued by a sequence of dispatcher events, in order. -/
def enqueuedOf {α : Type} (ops : List (DispOp α)) : List α :=
  ops.filterMap
    (fun op =>
      match op with
      | DispOp.enq e => some e
      | DispOp.flushOp => none)

/-- The empty dispatcher state. -/
def dispStart {α : Type} : DispState α :=
  { localSink := [], buffer := [], sent := [], dropCount := 0 }

/-! ### Lemmas about the object embedding -/

theorem getKey_setKey_self (o : List (String × JsVal)) (k : String) (v : JsVal) :
    getKey (setKey o k v) k = some v := by
  induction o with
  | nil => simp [setKey, getKey]
  | cons kv rest ih =>
    by_cases h : kv.1 = k
    · simp [setKey, h, getKey]
    · have h' : ¬ k = kv.1 := fun hk => h hk.symm
      simp [setKey, h, getKey, h', ih]

theorem getKey_setKey_other (o : List (String × JsVal)) (k k' : String) (v : JsVal)
    (hne : k' ≠ k) : getKey (setKey o k v) k' = getKey o k' := by
  induction o with
  | nil => simp [setKey, getKey, hne]
  | cons kv rest ih =>
    by_cases h : kv.1 = k
    · subst h
      simp [setKey, getKey, hne, ih]
    · simp [setKey, h, getKey, ih]

theorem spreadInto_nil (base : List (String × JsVal)) : spreadInto base [] = base := rfl

theorem spreadInto_cons (base : List (String × JsVal)) (kv : String × JsVal)
    (rest : List (String × JsVal)) :
    spreadInto base (kv :: rest) = spreadInto (setKey base kv.1 kv.2) rest := rfl

theorem getKey_spreadInto_not_mem (base m : List (String × JsVal)) (k : String)
    (h : ∀ kv ∈ m, kv.1 ≠ k) :
    getKey (spreadInto base m) k = getKey base k := by
  induction m generalizing base with
  | nil => rfl
  | cons kv rest ih =>
    rw [spreadInto_cons]
    have hk : kv.1 ≠ k := h kv (List.mem_cons_self kv rest)
    rw [ih (setKey base kv.1 kv.2) (fun x hx => h x (List.mem_cons_of_mem kv hx))]
    exact getKey_setKey_other base kv.1 k kv.2 (fun hh => hk hh.symm)

theorem getKey_spreadInto_mem (base m : List (String × JsVal)) (k : String) (v : JsVal)
    (hnd : (m.map Prod.fst).Nodup) (hmem : (k, v) ∈ m) :
    getKey (spreadInto base m) k = some v := by
  induction m generalizing base with
  | nil => cases hmem
  | cons kv rest ih =>
    rw [spreadInto_cons]
    rw [List.map_cons, List.nodup_cons] at hnd
    cases hmem with
    | head =>
      rw [getKey_spreadInto_not_mem (setKey base k v) rest k
        (fun x hx hxk => hnd.1 (by
          have hmm : k ∈ List.map Prod.fst rest := by
            rw [← hxk]
            exact List.mem_map_of_mem Prod.fst hx
          simpa using hmm))]
      exact getKey_setKey_self base k v
    | tail _ hm => exact ih (setKey base kv.1 kv.2) hnd.2 hm

theorem getKey_spreadInto_congr (base1 base2 m : List (String × JsVal)) (k : String)
    (h : getKey base1 k = getKey base2 k) :
    getKey (spreadInto base1 m) k = getKey (spreadInto base2 m) k := by
  induction m generalizing base1 base2 with
  | nil => exact h
  | cons kv rest ih =>
    rw [spreadInto_cons, spreadInto_cons]
    apply ih
    by_cases hk : k = kv.1
    · subst hk
      rw [getKey_setKey_self, getKey_setKey_self]
    · rw [getKey_setKey_other base1 kv.1 k kv.2 hk,
          getKey_setKey_other base2 kv.1 k kv.2 hk]
      exact h

theorem Date.toISOString_ne_empty (d : Date) : d.toISOString ≠ "" := by
  intro h
  have hz : ("Z" : String).length = 1 := rfl
  have hlen : d.toISOString.length = 0 := by rw [h]; rfl
  rw [Date.toISOString, String.length_append, hz] at hlen
  omega

/-! ### Concrete test fixtures -/

/-- A concrete request resembling the one in `app.ts`. -/
def reqExample : Request :=
  { agentId := some "AGENT12345", originalUrl := "/example", ip := "127.0.0.1",
    method := "GET", headers := [("host", "localhost")], params := [],
    body := "\x7b\x7d" }

/-- A concrete request with no `agentId` attached. -/
def reqNoAgent : Request :=
  { agentId := none, originalUrl := "/api/clients", ip := "10.0.0.2",
    method := "POST", headers := [], params := [], body := "" }

/-- A concrete call-time instant. -/
def dateNov9 : Date :=
  { year := 2024, month := 11, day := 9, hour := 12, minute := 0, second := 0,
    ms := 0 }

/-- A second, different concrete instant. -/
def dateNov10 : Date :=
  { year := 2024, month := 11, day := 10, hour := 8, minute := 30, second := 5,
    ms := 250 }

/-- A concrete options value with no additional data. -/
def optsPlain : LogEntryOptions :=
  { action := "VIEW", clientId := "CLIENT67890", additionalData := [],
    status := none }

theorem createLogEntry_def (now : Date) (options : LogEntryOptions) (req : Request) :
    createLogEntry now options req
      = spreadInto (fixedFields now options req) options.additionalData := rfl

/-! ### Claims about the envelope builder -/

/-- Claim C1 (corrected).  The claim states that fixed envelope fields take
precedence over colliding `additionalData` keys.  The source spreads
`...options.additionalData` last in the object literal, so the opposite
holds: every binding of `additionalData` (with object-unique keys)
overrides the fixed field of the same name in the returned entry. -/
theorem additionalData_overrides_fixed_fields (now : Date) (options : LogEntryOptions)
    (req : Request) (k : String) (v : JsVal)
    (hnd : (options.additionalData.map Prod.fst).Nodup)
    (hmem : (k, v) ∈ options.additionalData) :
    getKey (createLogEntry now options req) k = some v := by
  rw [createLogEntry_def]
  exact getKey_spreadInto_mem _ _ k v hnd hmem

/-- Claim C1, counterexample to the claim as stated: a call whose
`additionalData` binds the fixed key `action` returns the extra value
`OVERRIDDEN`, not the fixed-field value `VIEW` — fixed fields do not take
precedence. -/
theorem additionalData_overrides_fixed_fields_cex :
    getKey (createLogEntry dateNov9
      { action := "VIEW", clientId := "CLIENT67890",
        additionalData := [("action", JsVal.str "OVERRIDDEN")], status := none }
      reqExample) "action" = some (JsVal.str "OVERRIDDEN") ∧
    getKey (createLogEntry dateNov9
      { action := "VIEW", clientId := "CLIENT67890",
        additionalData := [("action", JsVal.str "OVERRIDDEN")], status := none }
      reqExample) "action" ≠ some (JsVal.str "VIEW") := by
  exact ⟨rfl, by decide⟩

/-- Claim C1, witness: the amended theorem applied at a concrete conflicting
call (an `additionalData` binding for `userRole` wins over the fixed
`"agent"` value). -/
theorem additionalData_overrides_fixed_fields_witness :
    getKey (createLogEntry dateNov9
      { action := "VIEW", clientId := "CLIENT67890",
        additionalData := [("userRole", JsVal.str "admin")], status := none }
      reqExample) "userRole" = some (JsVal.str "admin") :=
  additionalData_overrides_fixed_fields dateNov9
    { action := "VIEW", clientId := "CLIENT67890",
      additionalData := [("userRole", JsVal.str "admin")], status := none }
    reqExample "userRole" (JsVal.str "admin") (by decide) (by decide)

/-- Claim C3 (corrected).  `createLogEntry` is total and, when
`additionalData` binds neither `stream` nor any fixed key, the returned
entry carries the non-empty ISO timestamp, the given action, and a value
for every fixed field; but the entry has no `stream` field at all — the
stream is determined by the logger the entry is written to, so the claim's
"non-empty stream" has no counterpart in the returned value. -/
theorem createLogEntry_total_and_populated (now : Date) (options : LogEntryOptions)
    (req : Request)
    (hsep : ∀ kv ∈ options.additionalData, ¬ kv.1 ∈ "stream" :: fixedKeys) :
    getKey (createLogEntry now options req) "timestamp"
        = some (JsVal.str now.toISOString) ∧
    now.toISOString ≠ "" ∧
    getKey (createLogEntry now options req) "action"
        = some (JsVal.str options.action) ∧
    getKey (createLogEntry now options req) "stream" = none ∧
    ∀ k, k ∈ fixedKeys → (getKey (createLogEntry now options req) k).isSome = true := by
  have hred : ∀ kk : String, kk ∈ "stream" :: fixedKeys →
      getKey (createLogEntry now options req) kk
        = getKey (fixedFields now options req) kk := by
    intro kk hkk
    rw [createLogEntry_def]
    exact getKey_spreadInto_not_mem _ _ kk
      (fun kv hkv hEq => hsep kv hkv (hEq.symm ▸ hkk))
  refine ⟨?_, Date.toISOString_ne_empty now, ?_, ?_, ?_⟩
  · rw [hred "timestamp" (by decide)]
    rfl
  · rw [hred "action" (by decide)]
    rfl
  · rw [hred "stream" (by decide)]
    rfl
  · intro k hk
    rw [hred k (List.mem_cons_of_mem _ hk)]
    fin_cases hk <;> rfl

/-- Claim C3, counterexample to the claim as stated: at a concrete call the
returned entry has no `stream` key, so it is not "fully populated with a
non-empty stream". -/
theorem createLogEntry_no_stream_field_cex :
    getKey (createLogEntry dateNov9 optsPlain reqExample) "stream" = none := rfl

/-- Claim C3, witness: the amended theorem applied at a concrete call with
every ambient field absent from the request context. -/
theorem createLogEntry_total_and_populated_witness :
    getKey (createLogEntry dateNov9 optsPlain reqNoAgent) "timestamp"
      = some (JsVal.str (Date.toISOString dateNov9)) :=
  (createLogEntry_total_and_populated dateNov9 optsPlain reqNoAgent (by decide)).1

/-- Claim C8 (corrected).  When `additionalData` does not bind `agentId`,
the entry's `agentId` is `req.agentId || 'UNKNOWN_AGENT'`: the sentinel
when the context value is absent or empty, the context value otherwise.
An `additionalData` binding for `agentId`, however, overrides both (the
claim as stated quantifies over every call, so it fails there). -/
theorem agentId_sentinel_default (now : Date) (options : LogEntryOptions)
    (req : Request)
    (hna : ∀ kv ∈ options.additionalData, kv.1 ≠ "agentId") :
    ((req.agentId = none ∨ req.agentId = some "") →
      getKey (createLogEntry now options req) "agentId"
        = some (JsVal.str "UNKNOWN_AGENT")) ∧
    (∀ s : String, req.agentId = some s → s ≠ "" →
      getKey (createLogEntry now options req) "agentId" = some (JsVal.str s)) := by
  have hred : getKey (createLogEntry now options req) "agentId"
      = some (JsVal.str (jsOrString req.agentId "UNKNOWN_AGENT")) := by
    rw [createLogEntry_def, getKey_spreadInto_not_mem _ _ _ hna]
    rfl
  constructor
  · intro hcases
    rw [hred]
    rcases hcases with h | h <;> rw [h] <;> simp [jsOrString]
  · intro s hs hne
    rw [hred, hs]
    simp [jsOrString, hne]

/-- Claim C8, counterexample to the claim as stated: a call with an absent
context `agentId` but an `additionalData` binding for `agentId` returns the
extra value, not the sentinel. -/
theorem agentId_sentinel_default_cex :
    getKey (createLogEntry dateNov9
      { action := "VIEW", clientId := "CLIENT67890",
        additionalData := [("agentId", JsVal.str "SPOOFED")], status := none }
      reqNoAgent) "agentId" = some (JsVal.str "SPOOFED") ∧
    getKey (createLogEntry dateNov9
      { action := "VIEW", clientId := "CLIENT67890",
        additionalData := [("agentId", JsVal.str "SPOOFED")], status := none }
      reqNoAgent) "agentId" ≠ some (JsVal.str "UNKNOWN_AGENT") := by
  exact ⟨rfl, by decide⟩

/-- Claim C8, witness: the amended theorem applied at a concrete request
with no `agentId` in context yields the sentinel. -/
theorem agentId_sentinel_default_witness :
    getKey (createLogEntry dateNov9 optsPlain reqNoAgent) "agentId"
      = some (JsVal.str "UNKNOWN_AGENT") :=
  (agentId_sentinel_default dateNov9 optsPlain reqNoAgent (by decide)).1 (Or.inl rfl)

/-- Claim C9 (confirmed).  The envelope builder is deterministic up to the
clock: two calls with identical options and request differ at most in the
`timestamp` field, and coincide entirely when the captured instants render
to the same ISO string. -/
theorem createLogEntry_deterministic (d1 d2 : Date) (options : LogEntryOptions)
    (req : Request) :
    (∀ k, k ≠ "timestamp" →
      getKey (createLogEntry d1 options req) k
        = getKey (createLogEntry d2 options req) k) ∧
    (d1.toISOString = d2.toISOString →
      createLogEntry d1 options req = createLogEntry d2 options req) := by
  constructor
  · intro k hk
    rw [createLogEntry_def, createLogEntry_def]
    apply getKey_spreadInto_congr
    simp [fixedFields, getKey, hk]
  · intro h
    rw [createLogEntry_def, createLogEntry_def]
    simp only [fixedFields]
    rw [h]

/-- Claim C9, witness: determinism applied at two concrete instants (field
other than `timestamp` agrees) and at a frozen instant (full equality). -/
theorem createLogEntry_deterministic_witness :
    getKey (createLogEntry dateNov9 optsPlain reqExample) "agentId"
      = getKey (createLogEntry dateNov10 optsPlain reqExample) "agentId" ∧
    createLogEntry dateNov9 optsPlain reqExample
      = createLogEntry dateNov9 optsPlain reqExample :=
  ⟨(createLogEntry_deterministic dateNov9 dateNov10 optsPlain reqExample).1
      "agentId" (by decide),
   (createLogEntry_deterministic dateNov9 dateNov9 optsPlain reqExample).2 rfl⟩

/-- Claim C10 (confirmed).  The `userRole` field is the constant string
`"agent"` for every request context (the role is never read from the
request: the embedded `Request` carries no role and `createLogEntry`
consults none), unless an `additionalData` binding overrides it. -/
theorem userRole_always_agent (now : Date) (options : LogEntryOptions)
    (req : Request)
    (h : ∀ kv ∈ options.additionalData, kv.1 ≠ "userRole") :
    getKey (createLogEntry now options req) "userRole"
      = some (JsVal.str "agent") := by
  rw [createLogEntry_def, getKey_spreadInto_not_mem _ _ _ h]
  rfl

/-- Claim C10, witness: the constant role at a concrete call. -/
theorem userRole_always_agent_witness :
    getKey (createLogEntry dateNov9 optsPlain reqExample) "userRole"
      = some (JsVal.str "agent") :=
  userRole_always_agent dateNov9 optsPlain reqExample (by decide)

/-! ### Claims about the stream registry and its initialization -/

/-- Claim C2 (corrected).  The claim states that registry initialization
fails fatally with a `ConfigError` when remote-transport configuration is
missing.  The source has no such path: the module-level `loggers` record is
constructed unconditionally for every environment, a missing or empty
`CLOUDWATCH_LOG_GROUP_NAME` silently falls back to `'MyAppLogs'`, and
missing region and credentials are passed to the CloudWatch transport as
`undefined`. -/
theorem loggers_constructed_unconditionally (env : Env) :
    (∀ s : StreamId, resolve (loggers env) s = createLoggerForStream env s.name) ∧
    (∀ s : StreamId, ∃ cfg : CloudWatchConfig,
      (resolve (loggers env) s).transports
          = [Transport.console, Transport.cloudWatch cfg] ∧
      cfg.logGroupName = jsOrString env.CLOUDWATCH_LOG_GROUP_NAME "MyAppLogs" ∧
      cfg.logStreamName = s.name ∧
      cfg.awsRegion = env.AWS_REGION ∧
      cfg.awsAccessKeyId = env.AWS_ACCESS_KEY_ID ∧
      cfg.awsSecretAccessKey = env.AWS_SECRET_ACCESS_KEY) := by
  constructor
  · intro s
    cases s <;> rfl
  · intro s
    cases s <;> exact ⟨_, rfl, rfl, rfl, rfl, rfl, rfl⟩

/-- Claim C2, counterexample to the claim as stated: with every required
configuration variable unset, the spec's `initAll` contract demands a
`ConfigError`, but the source constructs the registry in full — the
`system-errors` logger exists with the fallback group name and absent
region and credentials. -/
theorem loggers_constructed_despite_missing_config_cex :
    initAllSpecContract envNone
        = Except.error (ConfigError.missing "CLOUDWATCH_LOG_GROUP_NAME") ∧
    (loggers envNone).systemErrors
        = { level := "info",
            transports :=
              [Transport.console,
               Transport.cloudWatch
                 { logGroupName := "MyAppLogs",
                   logStreamName := "system-errors",
                   awsRegion := none, jsonMessage := true,
                   awsAccessKeyId := none, awsSecretAccessKey := none,
                   uploadRate := 1000 }] } :=
  ⟨rfl, rfl⟩

/-- Claim C5 (confirmed).  Stream resolution is total over the closed
enumeration of exactly seven stream identifiers: every identifier is in the
enumeration, there are seven, their stream names are pairwise distinct (so
each identifier resolves to its own logger), and every identifier resolves
with no error case to the logger targeting its stream name.  The registry
is a fixed record built once; nothing creates streams afterwards. -/
theorem resolve_total_over_closed_enum (env : Env) :
    (∀ s : StreamId, s ∈ allStreamIds) ∧
    allStreamIds.length = 7 ∧
    (allStreamIds.map StreamId.name).Nodup ∧
    (∀ s : StreamId,
      cloudWatchStreamTarget (resolve (loggers env) s) = some s.name) := by
  refine ⟨?_, rfl, by decide, ?_⟩
  · intro s
    cases s <;> decide
  · intro s
    cases s <;> rfl

/-! ### Claim about the request instrumentation hook -/

/-- A concrete empty middleware state. -/
def appStart : AppState :=
  { systemErrorsLog := [], apiPerformanceLog := [], nextCalls := 0 }

/-- Claim C6 (corrected).  `logRequest` emits exactly one entry to the
`system-errors` stream carrying the request's method, URL, headers, params
and body, then passes control onward exactly once and leaves the response
untouched; but it emits nothing to `api-performance` — the latency/status
records on that stream are written separately by individual route handlers
in `app.ts`, not by the hook. -/
theorem logRequest_emits_ingress_only (req : Request) (res : ResponseVal)
    (st : AppState) :
    (logRequest req res st).1.systemErrorsLog = st.systemErrorsLog ++
      [{ message := "Incoming request", method := req.method,
         url := req.originalUrl, headers := req.headers, params := req.params,
         body := req.body }] ∧
    (logRequest req res st).1.apiPerformanceLog = st.apiPerformanceLog ∧
    (logRequest req res st).1.nextCalls = st.nextCalls + 1 ∧
    (logRequest req res st).2 = res :=
  ⟨rfl, rfl, rfl, rfl⟩

/-- Claim C6, counterexample to the claim as stated: after the hook runs on
a concrete request from the empty state, the `api-performance` stream has
received no entry at all, while one ingress entry was written and control
was passed once. -/
theorem logRequest_no_perf_entry_cex :
    (logRequest reqExample "RESPONSE" appStart).1.apiPerformanceLog = [] ∧
    (logRequest reqExample "RESPONSE" appStart).1.systemErrorsLog.length = 1 ∧
    (logRequest reqExample "RESPONSE" appStart).1.nextCalls = 1 :=
  ⟨rfl, rfl, rfl⟩

/-! ### Lemmas about the batching dispatcher -/

theorem enqueue_localSink {α : Type} (C : Nat) (e : α) (st : DispState α) :
    (enqueue C e st).localSink = st.localSink ++ [e] := by
  unfold enqueue
  dsimp only
  split <;> rfl

theorem enqueue_sent {α : Type} (C : Nat) (e : α) (st : DispState α) :
    (enqueue C e st).sent = st.sent := by
  unfold enqueue
  dsimp only
  split <;> rfl

theorem enqueue_dropCount_ge {α : Type} (C : Nat) (e : α) (st : DispState α) :
    st.dropCount ≤ (enqueue C e st).dropCount := by
  unfold enqueue
  dsimp only
  split <;> simp

theorem enqueue_no_drop {α : Type} (C : Nat) (e : α) (st : DispState α)
    (h : (enqueue C e st).dropCount = st.dropCount) :
    (enqueue C e st).buffer = st.buffer ++ [e] ∧ (enqueue C e st).sent = st.sent := by
  by_cases hc : st.buffer.length < C
  · simp [enqueue, hc]
  · exfalso
    simp [enqueue, hc] at h

theorem flush_localSink {α : Type} (st : DispState α) :
    (flush st).localSink = st.localSink := by
  unfold flush
  split <;> rfl

theorem flush_dropCount {α : Type} (st : DispState α) :
    (flush st).dropCount = st.dropCount := by
  unfold flush
  split <;> rfl

theorem flush_sent_buffer {α : Type} (st : DispState α) :
    (flush st).sent.flatten ++ (flush st).buffer = st.sent.flatten ++ st.buffer := by
  unfold flush
  split
  · rfl
  · simp [List.flatten_append]

theorem runOps_nil {α : Type} (C : Nat) (st : DispState α) :
    runOps C [] st = st := rfl

theorem runOps_cons_enq {α : Type} (C : Nat) (e : α) (rest : List (DispOp α))
    (st : DispState α) :
    runOps C (DispOp.enq e :: rest) st = runOps C rest (enqueue C e st) := rfl

theorem runOps_cons_flush {α : Type} (C : Nat) (rest : List (DispOp α))
    (st : DispState α) :
    runOps C (DispOp.flushOp :: rest) st = runOps C rest (flush st) := rfl

theorem enqueuedOf_nil {α : Type} : enqueuedOf ([] : List (DispOp α)) = [] := rfl

theorem enqueuedOf_cons_enq {α : Type} (e : α) (rest : List (DispOp α)) :
    enqueuedOf (DispOp.enq e :: rest) = e :: enqueuedOf rest := rfl

theorem enqueuedOf_cons_flush {α : Type} (rest : List (DispOp α)) :
    enqueuedOf (DispOp.flushOp :: rest) = enqueuedOf rest := rfl

theorem runOps_dropCount_mono {α : Type} (C : Nat) (ops : List (DispOp α))
    (st : DispState α) :
    st.dropCount ≤ (runOps C ops st).dropCount := by
  induction ops generalizing st with
  | nil => exact Nat.le_refl _
  | cons op rest ih =>
    cases op with
    | enq e =>
      rw [runOps_cons_enq]
      exact Nat.le_trans (enqueue_dropCount_ge C e st) (ih (enqueue C e st))
    | flushOp =>
      rw [runOps_cons_flush]
      calc st.dropCount = (flush st).dropCount := (flush_dropCount st).symm
        _ ≤ _ := ih (flush st)

/-! ### Claims about the batching dispatcher -/

/-- Claim C4 (confirmed, spec-modelled dispatcher).  Along any sequence of
dispatcher events, the Local Sink receives exactly the enqueued entries in
order — its write count equals the enqueue count — independently of buffer
capacity, buffer contents and remote-transport state; and an `enqueue`
call never touches the remote send list, so local delivery is prior to and
independent of remote delivery. -/
theorem localSink_receives_every_entry {α : Type} (C : Nat)
    (ops : List (DispOp α)) (st : DispState α) :
    (runOps C ops st).localSink = st.localSink ++ enqueuedOf ops ∧
    (∀ e : α, ∀ s : DispState α, (enqueue C e s).sent = s.sent) := by
  constructor
  · induction ops generalizing st with
    | nil => simp [runOps_nil, enqueuedOf_nil]
    | cons op rest ih =>
      cases op with
      | enq e =>
        rw [runOps_cons_enq, ih (enqueue C e st), enqueue_localSink,
            enqueuedOf_cons_enq]
        simp
      | flushOp =>
        rw [runOps_cons_flush, ih (flush st), flush_localSink,
            enqueuedOf_cons_flush]
  · intro e s
    exact enqueue_sent C e s

/-- Claim C7 (confirmed, spec-modelled dispatcher).  Sends are serialized
per stream (the single sequential send list is the one in-flight slot), and
along any run in which backpressure drops nothing, the concatenation of the
batches delivered to the remote endpoint followed by the still-buffered
entries equals the enqueue order: an entry enqueued earlier is delivered
before any entry enqueued later on the same stream. -/
theorem perStream_send_order {α : Type} (C : Nat) (ops : List (DispOp α))
    (st : DispState α)
    (h : (runOps C ops st).dropCount = st.dropCount) :
    (runOps C ops st).sent.flatten ++ (runOps C ops st).buffer
      = st.sent.flatten ++ st.buffer ++ enqueuedOf ops := by
  induction ops generalizing st with
  | nil => simp [runOps_nil, enqueuedOf_nil]
  | cons op rest ih =>
    cases op with
    | enq e =>
      rw [runOps_cons_enq] at h ⊢
      have h1 : st.dropCount ≤ (enqueue C e st).dropCount :=
        enqueue_dropCount_ge C e st
      have h2 : (enqueue C e st).dropCount
          ≤ (runOps C rest (enqueue C e st)).dropCount :=
        runOps_dropCount_mono C rest (enqueue C e st)
      have heq : (enqueue C e st).dropCount = st.dropCount := by omega
      obtain ⟨hbuf, hsent⟩ := enqueue_no_drop C e st heq
      rw [ih (enqueue C e st) (by omega), hbuf, hsent, enqueuedOf_cons_enq]
      simp
    | flushOp =>
      rw [runOps_cons_flush] at h ⊢
      have hfd : (flush st).dropCount = st.dropCount := flush_dropCount st
      rw [ih (flush st) (by omega), enqueuedOf_cons_flush, flush_sent_buffer]

/-- The spec's ordering test: three entries enqueued to one stream with a
flush after each (flush threshold 1). -/
def opsThreeBatches : List (DispOp Nat) :=
  [DispOp.enq 1, DispOp.flushOp, DispOp.enq 2, DispOp.flushOp,
   DispOp.enq 3, DispOp.flushOp]

/-- Claim C7, witness: the ordering theorem applied to the spec's concrete
test run — three entries with flush threshold 1 from the empty state; no
drop occurs and delivery order equals enqueue order. -/
theorem perStream_send_order_witness :
    (runOps 1 opsThreeBatches (dispStart : DispState Nat)).sent.flatten
        ++ (runOps 1 opsThreeBatches (dispStart : DispState Nat)).buffer
      = (dispStart : DispState Nat).sent.flatten
        ++ (dispStart : DispState Nat).buffer ++ enqueuedOf opsThreeBatches :=
  perStream_send_order 1 opsThreeBatches dispStart (by decide)

end WinstonCW

